import Mathlib

/-!
A shallow embedding of the P2P_QUICHAT session loop (package `internal/app`:
the `Message` wire struct, the probe table `pingOutstanding`, the receiver and
sender bodies of `ChatLoop`, and `announceJoinWhenReady`), together with
theorems about the latency-probe correlation, self-filtering of local control
envelopes, the codec round-trip, the one-shot presence announcement, and the
error-handling policy of the two loops.

Modelling conventions:
* Go `time.Time` values are modelled by their instant as an integer number of
  nanoseconds (`Int`); `time.Since(t0).Milliseconds()` is the truncating
  (toward-zero) integer division of the nanosecond difference by 1000000,
  exactly Go's `int64` division. (JSON serialization of a `time.Time` uses
  RFC3339 with nanoseconds, which round-trips the instant, so a timestamp is
  represented on the wire by its instant as well.)
* Go strings are modelled by Lean `String`. The reserved control prefixes
  (`__PING__`, `__PONG__`, `__JOIN__`, `/`) are ASCII, so Go's byte-indexed
  operations `strings.HasPrefix` and `s[8:]` coincide with character-list
  operations, which is how they are embedded here.
* The external pub/sub channel and the terminal are black boxes (the spec's
  `publish`/`next`/`listPeers` and `readLine`/`write`): each loop is embedded
  as a step function consuming one external event (a fetched datum or a read
  line, with the observation time, the freshly generated probe id, the peer
  list, and the result of the at-most-one `Publish` call of that step) and
  returning the updated probe table, the rendered output lines, the published
  envelopes, and the loop's control outcome. A loop is the fold of its step
  function over a finite trace of events.
-/

namespace Quichat

/-- The wire struct `Message` (source lines 17-21): nick, text and timestamp. -/
structure Message where
  nick : String
  text : String
  ts : Int
  deriving DecidableEq, Repr

/-- The probe table `pingOutstanding : map[string]time.Time` (source line 29),
modelled as an association list from probe id to send timestamp. -/
abbrev ProbeTable := List (String × Int)

/-- Go map lookup `t[id]` (the `t0, ok :=` form): the value at the key, if present. -/
def tableLookup (t : ProbeTable) (id : String) : Option Int :=
  match t with
  | [] => none
  | (k, v) :: rest => if k = id then some v else tableLookup rest id

/-- Go map deletion `delete(t, id)`: removes every binding of the key. -/
def tableErase (t : ProbeTable) (id : String) : ProbeTable :=
  match t with
  | [] => []
  | (k, v) :: rest => if k = id then tableErase rest id else (k, v) :: tableErase rest id

/-- Go map assignment `t[id] = v`: binds the key to the value, replacing any
previous binding. -/
def tableInsert (t : ProbeTable) (id : String) (v : Int) : ProbeTable :=
  (id, v) :: tableErase t id

/-- A JSON value: the codomain of `encoding/json` marshalling as used here.
Timestamps appear as their instant (see the header comment). -/
inductive Json where
  | null
  | bool (b : Bool)
  | num (n : Int)
  | str (s : String)
  | arr (elems : List Json)
  | obj (fields : List (String × Json))

/-- Go `json.Marshal` of a `Message` (source lines 17-21): an object with the
tagged field names, in struct order. -/
def encodeMessage (m : Message) : Json :=
  .obj [("nick", .str m.nick), ("text", .str m.text), ("ts", .num m.ts)]

/-- The value of the last occurrence of a key in a JSON object (Go's
`json.Unmarshal` keeps the last duplicate). -/
def lookupLast (l : List (String × Json)) (k : String) : Option Json :=
  match l with
  | [] => none
  | (k', v) :: rest =>
    match lookupLast rest k with
    | some w => some w
    | none => if k' = k then some v else none

/-- Unmarshalling a string-typed field: an absent field keeps the zero value,
a present field must be a JSON string. -/
def fieldStr (l : List (String × Json)) (k : String) : Option String :=
  match lookupLast l k with
  | none => some ""
  | some (.str s) => some s
  | some _ => none

/-- Unmarshalling the timestamp field: an absent field keeps the zero value,
a present field must be a timestamp. -/
def fieldTs (l : List (String × Json)) (k : String) : Option Int :=
  match lookupLast l k with
  | none => some 0
  | some (.num n) => some n
  | some _ => none

/-- Go `json.Unmarshal(data, &m)` for `m : Message` (source lines 59-62): the
top level must be an object (or `null`, which leaves the zero value); each
tagged field, when present, must have the right type. -/
def decodeMessage (j : Json) : Option Message :=
  match j with
  | .null => some ⟨"", "", 0⟩
  | .obj fields =>
    match fieldStr fields "nick", fieldStr fields "text", fieldTs fields "ts" with
    | some nick, some text, some ts => some ⟨nick, text, ts⟩
    | _, _, _ => none
  | _ => none

/-- One datum fetched from the channel: either bytes that parse as JSON, or
bytes that do not (`json.Unmarshal` fails before any field is read). -/
inductive Datum where
  | wellFormed (j : Json)
  | malformed

/-- The receiver's decode step (source lines 59-62): `json.Unmarshal` on the
fetched bytes. -/
def decodeDatum : Datum → Option Message
  | .malformed => none
  | .wellFormed j => decodeMessage j

/-- Go `strings.HasPrefix s p` (the prefixes used are ASCII, so the byte test
coincides with the character-list test). -/
def goHasPre (s p : String) : Bool :=
  p.data.isPrefixOf s.data

/-- Go byte slicing `s[n:]` at an ASCII-safe index. -/
def goDropN (s : String) (n : Nat) : String :=
  ⟨s.data.drop n⟩

/-- Go `unicode.IsSpace` restricted to ASCII whitespace (the characters that
can surround a trimmed command word here). -/
def isSpaceCh (c : Char) : Bool :=
  c == ' ' || c == '\t' || c == '\n' || c == '\r' || c == '\x0b' || c == '\x0c'

/-- Go `strings.TrimSpace` (source line 137). -/
def goTrim (s : String) : String :=
  ⟨((s.data.dropWhile isSpaceCh).reverse.dropWhile isSpaceCh).reverse⟩

/-- Go `strings.ToLower` on a command word (commands are ASCII). -/
def goToLower (s : String) : String :=
  ⟨s.data.map Char.toLower⟩

/-- The command word parsed from a slash line (source line 137):
`strings.ToLower(strings.TrimSpace(line[1:]))`. -/
def cmdOf (line : String) : String :=
  goToLower (goTrim (goDropN line 1))

/-- Go `strings.ReplaceAll(text, newline, newline-guillemet)` applied to chat
text before rendering (source line 105). -/
def goReplaceNl (s : String) : String :=
  s.replace "\n" "\n» "

/-- An error value crossing a loop boundary (`error` in Go): the context
cancellation error, a publish failure, or a terminal read failure. -/
inductive GoError where
  | ctxCanceled
  | pubFailed (msg : String)
  | readFailed (msg : String)
  deriving DecidableEq, Repr

/-- A content-bearing line written to the terminal (every `rl.Write` /
`fmt.Fprint*` of the two loop bodies other than pure prompt redraw and
line-clear escape sequences). -/
inductive Output where
  | pongLine (sender : String) (ms : Int)
  | joinLine (sender : String)
  | chatLine (sender text : String) (delivered : Int)
  | peersLine (peers : List String)
  | helpLine
  | farewellLine
  | unknownLine (cmd : String)
  deriving DecidableEq, Repr

/-- The effect of one receiver iteration on a fetched datum: the updated probe
table, the rendered lines, and the published envelopes. (Every such iteration
continues the loop; the loop only returns when the fetch itself fails.) -/
structure RecvRes where
  table : ProbeTable
  outputs : List Output
  published : List Message
  deriving DecidableEq, Repr

/-- One iteration of the receiver loop body on a successfully fetched datum
(source lines 54-122). `now` is the iteration's observation time (Go calls
`time.Now()` for the reply timestamp, the latency, and the delivery stamp
within one iteration); `pubErr` is the result of the at-most-one
`n.Topic.Publish` call of the iteration — the code discards it (`_ =`,
source line 75). -/
def recvStep (nick : String) (table : ProbeTable) (d : Datum) (now : Int)
    (pubErr : Option GoError) : RecvRes :=
  match decodeDatum d with
  | none => ⟨table, [], []⟩
  | some m =>
    if goHasPre m.text "__PING__" then
      if m.nick = nick then
        ⟨table, [], []⟩
      else
        ⟨table, [], [⟨nick, "__PONG__" ++ goDropN m.text 8, now⟩]⟩
    else if goHasPre m.text "__PONG__" then
      if m.nick = nick then
        ⟨table, [], []⟩
      else
        match tableLookup table (goDropN m.text 8) with
        | some t0 =>
          ⟨tableErase table (goDropN m.text 8),
            [.pongLine m.nick ((now - t0).tdiv 1000000)], []⟩
        | none => ⟨table, [], []⟩
    else if m.text = "__JOIN__" then
      if m.nick ≠ nick then ⟨table, [.joinLine m.nick], []⟩ else ⟨table, [], []⟩
    else
      ⟨table, [.chatLine m.nick (goReplaceNl m.text) now], []⟩

/-- One event observed by the receiver loop: a successful fetch (with the
iteration's observation time and the publish result it would discard), or a
failed fetch (`n.Sub.Next` returned an error, source lines 55-58). -/
inductive FetchEvent where
  | recv (d : Datum) (now : Int) (pubErr : Option GoError)
  | failed (e : GoError)

/-- The cumulative effect of the receiver loop over a finite trace: `result =
some e` means the loop returned `e`; `result = none` means the trace is
exhausted with the loop still running. -/
structure RecvLoopRes where
  table : ProbeTable
  outputs : List Output
  published : List Message
  result : Option GoError
  deriving Repr

/-- The receiver loop (source lines 53-123) folded over a finite event trace:
a failed fetch returns its error; a fetched datum is processed by `recvStep`
and the loop continues. -/
def recvLoop (nick : String) (table : ProbeTable) : List FetchEvent → RecvLoopRes
  | [] => ⟨table, [], [], none⟩
  | .failed e :: _ => ⟨table, [], [], some e⟩
  | .recv d now pe :: rest =>
    let r := recvStep nick table d now pe
    let rl := recvLoop nick r.table rest
    ⟨rl.table, r.outputs ++ rl.outputs, r.published ++ rl.published, rl.result⟩

/-- The control outcome of one sender iteration: continue the loop, or return
from the goroutine with `nil` (`done none`) or with an error (`done (some e)`). -/
inductive LoopOutcome where
  | next
  | done (e : Option GoError)
  deriving DecidableEq, Repr

/-- The result of one blocking `rl.Readline()` call (source lines 128-134):
a line of input, an interrupt (Ctrl+C), or a read error such as EOF. -/
inductive ReadResult where
  | line (s : String)
  | interrupt
  | failed (e : GoError)
  deriving DecidableEq, Repr

/-- The effect of one sender iteration: the updated probe table, the rendered
lines, the published envelopes, whether the shared `cancel()` was called, and
the loop's control outcome. -/
structure SendRes where
  table : ProbeTable
  outputs : List Output
  published : List Message
  cancelled : Bool
  outcome : LoopOutcome
  deriving DecidableEq, Repr

/-- One iteration of the sender loop body (source lines 126-188). `now` is the
iteration's time, `newId` the value `makeID()` would return in this iteration,
`peers` the current `n.Topic.ListPeers()`, and `pubErr` the result of the
at-most-one `n.Topic.Publish` call — discarded for a probe (`_ =`, source
line 154), checked for a chat message (source lines 185-187). -/
def sendStep (nick : String) (table : ProbeTable) (rd : ReadResult) (now : Int)
    (newId : String) (peers : List String) (pubErr : Option GoError) : SendRes :=
  match rd with
  | .interrupt => ⟨table, [], [], false, .next⟩
  | .failed e => ⟨table, [], [], false, .done (some e)⟩
  | .line line =>
    if goHasPre line "/" then
      let cmd := cmdOf line
      if cmd = "list" then
        ⟨table, [.peersLine peers], [], false, .next⟩
      else if cmd = "ping" then
        ⟨tableInsert table newId now, [], [⟨nick, "__PING__" ++ newId, now⟩],
          false, .next⟩
      else if cmd = "help" ∨ cmd = "h" ∨ cmd = "?" then
        ⟨table, [.helpLine], [], false, .next⟩
      else if cmd = "quit" ∨ cmd = "exit" ∨ cmd = "q" then
        ⟨table, [.farewellLine], [], true, .done none⟩
      else
        ⟨table, [.unknownLine cmd], [], false, .next⟩
    else
      match pubErr with
      | some e => ⟨table, [], [⟨nick, line, now⟩], false, .done (some e)⟩
      | none => ⟨table, [], [⟨nick, line, now⟩], false, .next⟩

/-- The value the sender goroutine hands to the errgroup when the trace ends:
the returned error, `none` for a `return nil` or while still running. -/
def senderResult : LoopOutcome → Option GoError
  | .next => none
  | .done e => e

/-- The `errgroup.Group.Wait` of `golang.org/x/sync`: the first non-nil error
among the goroutine results (source lines 47 and 191). -/
def errgroupWait : List (Option GoError) → Option GoError
  | [] => none
  | some e :: _ => some e
  | none :: rest => errgroupWait rest

/-- ChatLoop's return value `g.Wait()` (source line 191): the first non-nil
error among the receiver's and the sender's loop results. -/
def chatLoopReturn (recvResult sendResult : Option GoError) : Option GoError :=
  errgroupWait [recvResult, sendResult]

/-- Modelled from the spec: the external channel's fetch is "blocking,
cancelable" — once the shared token is cancelled, the receiver's blocked
`n.Sub.Next(ctx)` returns the cancellation error instead of data, so the
receiver loop observes a failed fetch carrying that error. -/
def fetchAfterCancel : FetchEvent :=
  .failed .ctxCanceled

/-- One event observed by the presence announcer's goroutine (source lines
201-217): the context is done, or a ticker tick on which it observes
`len(n.Topic.ListPeers())`. -/
inductive AnnEvent where
  | ctxDone
  | tick (peerCount : Nat) (now : Int)

/-- The presence announcer `announceJoinWhenReady` (source lines 194-219)
folded over a finite event trace, returning the envelopes it publishes: it
exits on cancellation; on the first tick observing a non-empty peer set it
publishes the single `__JOIN__` envelope (under the `sync.Once` latch) and
returns; otherwise it keeps polling. -/
def announceJoinWhenReady (nick : String) : List AnnEvent → List Message
  | [] => []
  | .ctxDone :: _ => []
  | .tick k now :: rest =>
    if k > 0 then [⟨nick, "__JOIN__", now⟩]
    else announceJoinWhenReady nick rest

/-! Helper lemmas about the string and table operations. -/

theorem hasPre_ping_self (t : String) : goHasPre ("__PING__" ++ t) "__PING__" = true := by
  simp [goHasPre, List.isPrefixOf]

theorem hasPre_pong_self (t : String) : goHasPre ("__PONG__" ++ t) "__PONG__" = true := by
  simp [goHasPre, List.isPrefixOf]

theorem hasPre_pong_not_ping (t : String) : goHasPre ("__PONG__" ++ t) "__PING__" = false := by
  simp [goHasPre, List.isPrefixOf]

theorem hasPre_join_not_ping : goHasPre "__JOIN__" "__PING__" = false := by decide

theorem hasPre_join_not_pong : goHasPre "__JOIN__" "__PONG__" = false := by decide

theorem dropN_ping (t : String) : goDropN ("__PING__" ++ t) 8 = t := rfl

theorem dropN_pong (t : String) : goDropN ("__PONG__" ++ t) 8 = t := rfl

theorem tableLookup_insert_self (t : ProbeTable) (id : String) (v : Int) :
    tableLookup (tableInsert t id v) id = some v := by
  simp [tableInsert, tableLookup]

theorem tableLookup_erase_self (t : ProbeTable) (id : String) :
    tableLookup (tableErase t id) id = none := by
  induction t with
  | nil => rfl
  | cons kv rest ih =>
    by_cases hk : kv.1 = id
    · simp [tableErase, hk, ih]
    · simp [tableErase, tableLookup, hk, ih]

theorem decode_encode (m : Message) : decodeMessage (encodeMessage m) = some m := rfl

/-! Theorems settling the claims. -/

/-- C6: for every constructible Envelope (a `Message` with sender, text and
timestamp), decoding the JSON produced by encoding the envelope yields the
same envelope. -/
theorem C6_codec_roundtrip (m : Message) :
    decodeMessage (encodeMessage m) = some m :=
  decode_encode m

/-- C5: a channel datum whose bytes fail to decode as an envelope produces no
rendered line, no publish and no table change, and the receiver loop on such a
datum is the same loop on the remaining trace: the malformed datum is dropped
individually and the session does not terminate. -/
theorem C5_malformed_dropped (nick : String) (table : ProbeTable) (now : Int)
    (pe : Option GoError) (rest : List FetchEvent) :
    recvStep nick table .malformed now pe = ⟨table, [], []⟩ ∧
    recvLoop nick table (.recv .malformed now pe :: rest) = recvLoop nick table rest :=
  ⟨rfl, rfl⟩

/-- C1: a remote ProbeReply whose id is recorded at timestamp `t0` yields
exactly one rendered latency line whose elapsed value is the processing time
minus `t0` (rendered, as the code does, in whole milliseconds of the
nanosecond difference) and removes the record for that id; a remote ProbeReply
whose id is not recorded yields nothing, no error, and leaves the table
unchanged; and the insertion done by the `/ping` command records exactly the
timestamp that is later looked up. -/
theorem C1_probe_resolution (nick sender id : String) (table : ProbeTable)
    (t0 ts now : Int) (d : Datum) (pe : Option GoError)
    (hd : decodeDatum d = some ⟨sender, "__PONG__" ++ id, ts⟩)
    (hs : sender ≠ nick) :
    (tableLookup table id = some t0 →
      recvStep nick table d now pe =
        ⟨tableErase table id, [.pongLine sender ((now - t0).tdiv 1000000)], []⟩ ∧
      tableLookup (recvStep nick table d now pe).table id = none) ∧
    (tableLookup table id = none →
      recvStep nick table d now pe = ⟨table, [], []⟩) ∧
    tableLookup (tableInsert table id t0) id = some t0 := by
  refine ⟨?_, ?_, tableLookup_insert_self table id t0⟩
  · intro hfound
    have heq : recvStep nick table d now pe =
        ⟨tableErase table id, [.pongLine sender ((now - t0).tdiv 1000000)], []⟩ := by
      simp [recvStep, hd, hasPre_pong_not_ping, hasPre_pong_self, dropN_pong, hs, hfound]
    refine ⟨heq, ?_⟩
    rw [heq]
    exact tableLookup_erase_self table id
  · intro hnone
    simp [recvStep, hd, hasPre_pong_not_ping, hasPre_pong_self, dropN_pong, hs, hnone]

/-- C1 witness: a concrete remote reply to a recorded probe renders one
latency line and erases the record, and an unrecorded id is swallowed. -/
theorem C1_probe_resolution_witness :
    (tableLookup [("ab", 5)] "ab" = some 5 →
      recvStep "bob" [("ab", 5)] (.wellFormed (encodeMessage ⟨"alice", "__PONG__" ++ "ab", 9⟩)) 7 none =
        ⟨tableErase [("ab", 5)] "ab", [.pongLine "alice" (((7 : Int) - 5).tdiv 1000000)], []⟩ ∧
      tableLookup (recvStep "bob" [("ab", 5)] (.wellFormed (encodeMessage ⟨"alice", "__PONG__" ++ "ab", 9⟩)) 7 none).table "ab" = none) ∧
    (tableLookup [("ab", 5)] "ab" = none →
      recvStep "bob" [("ab", 5)] (.wellFormed (encodeMessage ⟨"alice", "__PONG__" ++ "ab", 9⟩)) 7 none = ⟨[("ab", 5)], [], []⟩) ∧
    tableLookup (tableInsert [("ab", 5)] "ab" 5) "ab" = some 5 :=
  C1_probe_resolution "bob" "alice" "ab" [("ab", 5)] 5 9 7
    (.wellFormed (encodeMessage ⟨"alice", "__PONG__" ++ "ab", 9⟩)) none
    (by rw [decodeDatum, decode_encode]) (by decide)

theorem recvStep_remote_probe (nick sender id : String) (table : ProbeTable)
    (ts now : Int) (d : Datum) (pe : Option GoError)
    (hd : decodeDatum d = some ⟨sender, "__PING__" ++ id, ts⟩)
    (hs : sender ≠ nick) :
    recvStep nick table d now pe = ⟨table, [], [⟨nick, "__PONG__" ++ id, now⟩]⟩ := by
  simp [recvStep, hd, hasPre_ping_self, dropN_ping, hs]

/-- C7: a remote probe envelope produces exactly one published ProbeReply
carrying the same id, attributed to the local identity, with no rendered line
and no table change. -/
theorem C7_remote_probe_reply (nick sender id : String) (table : ProbeTable)
    (ts now : Int) (d : Datum) (pe : Option GoError)
    (hd : decodeDatum d = some ⟨sender, "__PING__" ++ id, ts⟩)
    (hs : sender ≠ nick) :
    recvStep nick table d now pe = ⟨table, [], [⟨nick, "__PONG__" ++ id, now⟩]⟩ :=
  recvStep_remote_probe nick sender id table ts now d pe hd hs

/-- C7 witness: a concrete remote probe is answered by one ProbeReply with the
same id and rendered as nothing. -/
theorem C7_remote_probe_reply_witness :
    recvStep "bob" [] (.wellFormed (encodeMessage ⟨"alice", "__PING__" ++ "c4", 3⟩)) 11 none =
      ⟨[], [], [⟨"bob", "__PONG__" ++ "c4", 11⟩]⟩ :=
  C7_remote_probe_reply "bob" "alice" "c4" [] 3 11
    (.wellFormed (encodeMessage ⟨"alice", "__PING__" ++ "c4", 3⟩)) none
    (by rw [decodeDatum, decode_encode]) (by decide)

/-- C3: a control envelope (Probe, ProbeReply or Presence) whose sender equals
the local identity is swallowed: no rendered line, no publish, no probe-table
mutation. -/
theorem C3_local_control_swallowed (nick r : String) (table : ProbeTable)
    (m : Message) (now : Int) (d : Datum) (pe : Option GoError)
    (hd : decodeDatum d = some m) (hl : m.nick = nick)
    (hc : m.text = "__PING__" ++ r ∨ m.text = "__PONG__" ++ r ∨ m.text = "__JOIN__") :
    recvStep nick table d now pe = ⟨table, [], []⟩ := by
  rcases hc with h | h | h
  · simp [recvStep, hd, h, hasPre_ping_self, hl]
  · simp [recvStep, hd, h, hasPre_pong_not_ping, hasPre_pong_self, hl]
  · simp [recvStep, hd, h, hasPre_join_not_ping, hasPre_join_not_pong, hl]

/-- C3 witness: a concrete local-origin probe is swallowed. -/
theorem C3_local_control_swallowed_witness :
    recvStep "alice" [("x", 0)] (.wellFormed (encodeMessage ⟨"alice", "__PING__" ++ "x", 2⟩)) 5 none =
      ⟨[("x", 0)], [], []⟩ :=
  C3_local_control_swallowed "alice" "x" [("x", 0)] ⟨"alice", "__PING__" ++ "x", 2⟩ 5
    (.wellFormed (encodeMessage ⟨"alice", "__PING__" ++ "x", 2⟩)) none
    (by rw [decodeDatum, decode_encode]) rfl (Or.inl rfl)

/-- C8: a terminal line that does not start with the command slash is
published as a Chat envelope carrying the local identity, the line and the
current time; a failed publish makes the sender loop return that error, while
a successful one continues the loop; the table is untouched and nothing is
rendered. -/
theorem C8_chat_publish (nick line : String) (table : ProbeTable) (now : Int)
    (newId : String) (peers : List String) (pe : Option GoError)
    (h : goHasPre line "/" = false) :
    (sendStep nick table (.line line) now newId peers pe).published = [⟨nick, line, now⟩] ∧
    (sendStep nick table (.line line) now newId peers pe).table = table ∧
    (sendStep nick table (.line line) now newId peers pe).outputs = [] ∧
    (sendStep nick table (.line line) now newId peers pe).outcome =
      (match pe with
        | some e => .done (some e)
        | none => .next) := by
  cases pe with
  | none => simp [sendStep, h]
  | some e => simp [sendStep, h]

/-- C8 witness: a concrete chat line is published; with a failing publish the
sender loop returns the error, with a successful one it continues. -/
theorem C8_chat_publish_witness :
    ((sendStep "alice" [] (.line "hi") 4 "id" [] (some (.pubFailed "boom"))).published =
        [⟨"alice", "hi", 4⟩] ∧
      (sendStep "alice" [] (.line "hi") 4 "id" [] (some (.pubFailed "boom"))).table = [] ∧
      (sendStep "alice" [] (.line "hi") 4 "id" [] (some (.pubFailed "boom"))).outputs = [] ∧
      (sendStep "alice" [] (.line "hi") 4 "id" [] (some (.pubFailed "boom"))).outcome =
        .done (some (.pubFailed "boom"))) ∧
    (sendStep "alice" [] (.line "hi") 4 "id" [] none).outcome = .next :=
  ⟨C8_chat_publish "alice" "hi" [] 4 "id" [] (some (.pubFailed "boom")) (by decide),
    (C8_chat_publish "alice" "hi" [] 4 "id" [] none (by decide)).2.2.2⟩

/-- C4: the presence announcer publishes at most one Presence envelope over
any trace of polling ticks, and if cancellation occurs before any tick that
observes a non-empty peer set, it publishes nothing. -/
theorem C4_announce_at_most_once (nick : String) (evs pre rest : List AnnEvent)
    (h : ∀ e ∈ pre, ∃ now, e = .tick 0 now) :
    (announceJoinWhenReady nick evs).length ≤ 1 ∧
    announceJoinWhenReady nick (pre ++ .ctxDone :: rest) = [] := by
  constructor
  · induction evs with
    | nil => simp [announceJoinWhenReady]
    | cons e tl ih =>
      cases e with
      | ctxDone => simp [announceJoinWhenReady]
      | tick k now =>
        by_cases hk : k > 0
        · simp [announceJoinWhenReady, hk]
        · simpa [announceJoinWhenReady, hk] using ih
  · induction pre with
    | nil => simp [announceJoinWhenReady]
    | cons e tl ih =>
      obtain ⟨now, rfl⟩ := h e (List.mem_cons_self e tl)
      have htl : ∀ e ∈ tl, ∃ now, e = AnnEvent.tick 0 now :=
        fun x hx => h x (List.mem_cons_of_mem _ hx)
      simpa [announceJoinWhenReady] using ih htl

/-- C4 witness: a trace with two peer-observing ticks publishes at most once,
and a cancellation after a zero-peer tick publishes nothing. -/
theorem C4_announce_at_most_once_witness :
    (announceJoinWhenReady "alice" [.tick 3 0, .tick 5 1]).length ≤ 1 ∧
    announceJoinWhenReady "alice" ([.tick 0 0] ++ .ctxDone :: [.tick 9 2]) = [] :=
  C4_announce_at_most_once "alice" [.tick 3 0, .tick 5 1] [.tick 0 0] [.tick 9 2]
    (fun e he => ⟨0, by simpa using he⟩)

/-- C2 (amended): on quit, exit or q the sender renders the farewell, fires
the shared cancellation and its own loop returns nil; the receiver's blocked
fetch then returns the cancellation error, and ChatLoop's errgroup wait
returns that error — the session terminates, but `ChatLoop` returns the
cancellation error rather than nil. -/
theorem C2_quit_shutdown (nick line : String) (table rtable : ProbeTable)
    (now : Int) (newId : String) (peers : List String) (pe : Option GoError)
    (hs : goHasPre line "/" = true)
    (h : cmdOf line = "quit" ∨ cmdOf line = "exit" ∨ cmdOf line = "q") :
    (sendStep nick table (.line line) now newId peers pe).outputs = [.farewellLine] ∧
    (sendStep nick table (.line line) now newId peers pe).cancelled = true ∧
    (sendStep nick table (.line line) now newId peers pe).outcome = .done none ∧
    chatLoopReturn (recvLoop nick rtable [fetchAfterCancel]).result
      (senderResult (sendStep nick table (.line line) now newId peers pe).outcome) =
      some .ctxCanceled := by
  rcases h with h | h | h <;>
    simp [sendStep, hs, h, chatLoopReturn, recvLoop, fetchAfterCancel, errgroupWait,
      senderResult]

/-- C2 witness: the concrete line `/quit` renders the farewell, cancels,
returns nil from the sender, and makes ChatLoop return the cancellation
error. -/
theorem C2_quit_shutdown_witness :
    (sendStep "alice" [] (.line "/quit") 0 "id" [] none).outputs = [.farewellLine] ∧
    (sendStep "alice" [] (.line "/quit") 0 "id" [] none).cancelled = true ∧
    (sendStep "alice" [] (.line "/quit") 0 "id" [] none).outcome = .done none ∧
    chatLoopReturn (recvLoop "alice" [] [fetchAfterCancel]).result
      (senderResult (sendStep "alice" [] (.line "/quit") 0 "id" [] none).outcome) =
      some .ctxCanceled :=
  C2_quit_shutdown "alice" "/quit" [] [] 0 "id" [] none (by decide) (Or.inl (by decide))

/-- C2 counterexample: after a `/quit`, the sender's own loop returns nil, yet
ChatLoop's errgroup wait returns the receiver's cancellation error, so the
session does not return without an error as the claim states. -/
theorem C2_quit_returns_error :
    (sendStep "alice" [] (.line "/quit") 0 "id" [] none).outcome = .done none ∧
    chatLoopReturn (recvLoop "alice" [] [fetchAfterCancel]).result
      (senderResult (sendStep "alice" [] (.line "/quit") 0 "id" [] none).outcome) =
      some .ctxCanceled ∧
    (some GoError.ctxCanceled ≠ (none : Option GoError)) := by
  refine ⟨by decide, rfl, by decide⟩

/-- C10: a publish failure for a Probe (issued by the ping command) or for a
ProbeReply (issued by the receiver answering a remote probe) is discarded: the
step result is identical to the successful-publish result, the loop continues,
and nothing is rendered — whereas the same failure on a chat publish makes the
sender loop return the error. -/
theorem C10_probe_publish_failure_ignored (nick sender id lp lc : String)
    (table : ProbeTable) (ts now : Int) (newId : String) (peers : List String)
    (e : GoError) (d : Datum)
    (hd : decodeDatum d = some ⟨sender, "__PING__" ++ id, ts⟩) (hs : sender ≠ nick)
    (hp : goHasPre lp "/" = true) (hc : cmdOf lp = "ping")
    (hchat : goHasPre lc "/" = false) :
    recvStep nick table d now (some e) = recvStep nick table d now none ∧
    (recvStep nick table d now (some e)).published = [⟨nick, "__PONG__" ++ id, now⟩] ∧
    (recvStep nick table d now (some e)).outputs = [] ∧
    sendStep nick table (.line lp) now newId peers (some e) =
      sendStep nick table (.line lp) now newId peers none ∧
    (sendStep nick table (.line lp) now newId peers (some e)).outcome = .next ∧
    (sendStep nick table (.line lp) now newId peers (some e)).outputs = [] ∧
    (sendStep nick table (.line lc) now newId peers (some e)).outcome = .done (some e) := by
  have hrecv := recvStep_remote_probe nick sender id table ts now d (some e) hd hs
  exact ⟨rfl, by rw [hrecv], by rw [hrecv],
    by simp [sendStep, hp, hc], by simp [sendStep, hp, hc], by simp [sendStep, hp, hc],
    by simp [sendStep, hchat]⟩

/-- C10 witness: a failing publish on a concrete ping command and on a
concrete remote-probe reply leaves both steps identical to the successful
case, while the same failure on a chat line is returned by the sender loop. -/
theorem C10_probe_publish_failure_ignored_witness :
    recvStep "alice" [] (.wellFormed (encodeMessage ⟨"bob", "__PING__" ++ "z", 1⟩)) 2
        (some (.pubFailed "x")) =
      recvStep "alice" [] (.wellFormed (encodeMessage ⟨"bob", "__PING__" ++ "z", 1⟩)) 2 none ∧
    (recvStep "alice" [] (.wellFormed (encodeMessage ⟨"bob", "__PING__" ++ "z", 1⟩)) 2
        (some (.pubFailed "x"))).published = [⟨"alice", "__PONG__" ++ "z", 2⟩] ∧
    (recvStep "alice" [] (.wellFormed (encodeMessage ⟨"bob", "__PING__" ++ "z", 1⟩)) 2
        (some (.pubFailed "x"))).outputs = [] ∧
    sendStep "alice" [] (.line "/ping") 2 "n1" [] (some (.pubFailed "x")) =
      sendStep "alice" [] (.line "/ping") 2 "n1" [] none ∧
    (sendStep "alice" [] (.line "/ping") 2 "n1" [] (some (.pubFailed "x"))).outcome = .next ∧
    (sendStep "alice" [] (.line "/ping") 2 "n1" [] (some (.pubFailed "x"))).outputs = [] ∧
    (sendStep "alice" [] (.line "hey") 2 "n1" [] (some (.pubFailed "x"))).outcome =
      .done (some (.pubFailed "x")) :=
  C10_probe_publish_failure_ignored "alice" "bob" "z" "/ping" "hey" [] 1 2 "n1" []
    (.pubFailed "x") (.wellFormed (encodeMessage ⟨"bob", "__PING__" ++ "z", 1⟩))
    (by rw [decodeDatum, decode_encode]) (by decide) (by decide) (by decide) (by decide)

end Quichat
